import Mathlib

/-!
Verification of the test-case-generator front end (`streamlit_app.py`).

The script is modelled by shallow embedding: each Python function becomes a
Lean function over explicit inputs.  Network transport and the external
document-parsing library are nondeterministic from the point of view
of the script, so their results are inputs (an outcome datatype / a record field);
everything the script itself computes is translated directly from the source.
-/

/-- A JSON value, as produced by `response.json()`. -/
inductive Json where
  | null : Json
  | bool : Bool → Json
  | num : Int → Json
  | str : String → Json
  | arr : List Json → Json
  | obj : List (String × Json) → Json

/-- Python `dict.get(key, default)` on a JSON object; on a non-object the
script would crash, we return the default (the claims only exercise objects,
and the witnesses instantiate objects only). -/
def Json.getD (j : Json) (key : String) (d : Json) : Json :=
  match j with
  | .obj fields =>
    match fields.find? (fun p => p.1 == key) with
    | some p => p.2
    | none => d
  | _ => d

/-- Python truthiness of a JSON value (`if test_cases:`). -/
def Json.pyTruthy : Json → Bool
  | .null => false
  | .bool b => b
  | .num n => n != 0
  | .str s => !s.isEmpty
  | .arr l => !l.isEmpty
  | .obj fields => !fields.isEmpty

/-- Outcome of one HTTP request as seen by the `try:` block: either the
transport completed and the body parsed as JSON, or some exception was
raised.  The constructors mirror the `except` clauses of
`generate_test_cases_api` (`requests.exceptions.Timeout`,
`requests.exceptions.ConnectionError`, other `requests.exceptions.RequestException`,
any other `Exception`). -/
inductive TransportOutcome where
  | success (code : Nat) (body : Json)
  | timeout
  | connectionError
  | requestError (msg : String)
  | otherError (msg : String)

/-- Function `generate_test_cases_api` (streamlit_app.py lines 73-92): POSTs the SRS
text and returns `(status_code, json)`, converting each exception class to a
fixed status surrogate with an `{"error": ...}` payload. -/
def generate_test_cases_api : TransportOutcome → Nat × Json
  | .success code body => (code, body)
  | .timeout => (408, .obj [("error", .str "Request timed out. Please try with shorter SRS content.")])
  | .connectionError => (503, .obj [("error", .str "Cannot connect to backend service. Please try again later.")])
  | .requestError m => (500, .obj [("error", .str ("Request failed: " ++ m))])
  | .otherError m => (500, .obj [("error", .str ("Unexpected error: " ++ m))])

/-- The JSON request body sent by `generate_test_cases_api`:
`json={"srs": srs_text}` (line 78).  No truncation is applied. -/
def requestPayload (srs_text : String) : Json :=
  .obj [("srs", .str srs_text)]

/-- Outcome of the `GET /health` request in `check_backend_health`:
a completed response with parsed JSON body, or any raised exception `e`
(stringified by the handler). -/
inductive HealthOutcome where
  | response (code : Nat) (body : Json)
  | exc (msg : String)

/-- Second component returned by `check_backend_health`: the parsed body,
Python `None`, or `str(e)`. -/
inductive HealthDetails where
  | parsed (body : Json)
  | noDetails
  | errText (msg : String)

/-- Function `check_backend_health` (lines 50-58). -/
def check_backend_health : HealthOutcome → Bool × HealthDetails
  | .response code body =>
    if code == 200 then (true, .parsed body) else (false, .noDetails)
  | .exc m => (false, .errText m)

/-- The sidebar warning attached to the content statistics
(lines 179-182): over 5000 characters warns about truncation, under 100
warns the content is short. -/
inductive ContentWarning where
  | truncation (chars : Nat)
  | tooShort
  | noWarning

/-- Which warning the statistics panel shows for extracted text. -/
def contentWarning (srs_text : String) : ContentWarning :=
  if srs_text.length > 5000 then .truncation srs_text.length
  else if srs_text.length < 100 then .tooShort
  else .noWarning

/-- What the generate-button handler renders for one `(status_code, response_data)`
pair (lines 236-307): the results panel, the "No test cases generated" panel
(status 200 but falsy `test_cases`), or the "Generation Failed" panel
(non-200 status). -/
inductive GenerationView where
  | results (test_cases : Json)
  | noTestCases
  | generationFailed (error_msg : Json) (status_code : Nat)

/-- The branching of the generate-button handler on the API result
(lines 236-307): `test_cases = response_data.get("test_cases", [])`,
success panel if truthy, else the empty-result panel; non-200 renders
`response_data.get("error", "Unknown error occurred")` with the status code. -/
def handleResponse (status_code : Nat) (response_data : Json) : GenerationView :=
  if status_code == 200 then
    let test_cases := response_data.getD "test_cases" (.arr [])
    if test_cases.pyTruthy then .results test_cases else .noTestCases
  else
    .generationFailed (response_data.getD "error" (.str "Unknown error occurred")) status_code

/-- The delimiter `' - '` of the result parsing heuristic, as characters. -/
def dashSep : List Char := [' ', '-', ' ']

/-- Python `' - ' in tc`: does the three-character delimiter occur in the
string (scanned left to right)? -/
def containsDashSep : List Char → Bool
  | ' ' :: '-' :: ' ' :: _ => true
  | _ :: rest => containsDashSep rest
  | [] => false

/-- Python `tc.split(' - ')` (for this fixed non-empty separator): cut at
each leftmost non-overlapping occurrence of the delimiter.  `acc` holds the
reversed characters of the segment being built. -/
def splitDashAux : List Char → List Char → List (List Char)
  | ' ' :: '-' :: ' ' :: rest, acc => acc.reverse :: splitDashAux rest []
  | c :: rest, acc => splitDashAux rest (c :: acc)
  | [], acc => [acc.reverse]

/-- Python `tc.split(' - ')` (line 255). -/
def splitDash (l : List Char) : List (List Char) := splitDashAux l []

/-- Python `sep.join(parts)`: interleave the separator between the segments. -/
def joinSep (sep : List Char) : List (List Char) → List Char
  | [] => []
  | [x] => x
  | x :: y :: rest => x ++ sep ++ joinSep sep (y :: rest)

/-- How one test-case string is displayed. -/
inductive Rendered where
  | structured (objective steps expected : String)
  | verbatim (tc : String)
deriving DecidableEq

/-- The per-test-case display logic of the generate-button handler
(lines 254-267): if `' - ' in tc` and the split has at least three parts,
show parts 0 and 1 and the `' - '`-rejoin of the rest as
objective / steps / expected result; otherwise write the string as is. -/
def renderTestCase (tc : String) : Rendered :=
  if containsDashSep tc.toList then
    match splitDash tc.toList with
    | p0 :: p1 :: p2 :: rest =>
      .structured (String.mk p0) (String.mk p1) (String.mk (joinSep dashSep (p2 :: rest)))
    | _ => .verbatim tc
  else .verbatim tc

/-- The `f"{i}. {tc}"` lines for `enumerate(test_cases, 1)` (line 277),
starting at index `i`. -/
def numberedLines : Nat → List String → List String
  | _, [] => []
  | i, tc :: rest => (toString i ++ ". " ++ tc) :: numberedLines (i + 1) rest

/-- The export body `export_text` (line 277):
`"\n".join(f"{i}. {tc}" for i, tc in enumerate(test_cases, 1))`. -/
def export_text (test_cases : List String) : String :=
  String.intercalate "\n" (numberedLines 1 test_cases)

/-- A wall-clock instant as consumed by `datetime.now().strftime('%Y%m%d_%H%M%S')`. -/
structure Timestamp where
  year : Nat
  month : Nat
  day : Nat
  hour : Nat
  minute : Nat
  second : Nat

/-- Decimal digits of `n`, most significant first (Python decimal formatting). -/
def natDigits (n : Nat) : List Char :=
  if h : n < 10 then [Char.ofNat (48 + n)]
  else natDigits (n / 10) ++ [Char.ofNat (48 + n % 10)]
decreasing_by exact Nat.div_lt_self (by omega) (by omega)

/-- Zero-pad the decimal form of `n` on the left to width `w`
(`strftime` zero-padded numeric directives). -/
def padNum (w n : Nat) : List Char :=
  List.leftpad w '0' (natDigits n)

/-- Python `datetime.now().strftime('%Y%m%d_%H%M%S')`: the timestamp core of
the download filename. -/
def strftimeCompact (t : Timestamp) : String :=
  String.mk (padNum 4 t.year ++ padNum 2 t.month ++ padNum 2 t.day ++ ['_'] ++
    padNum 2 t.hour ++ padNum 2 t.minute ++ padNum 2 t.second)

/-- The `file_name=f"test_cases_{datetime.now().strftime('%Y%m%d_%H%M%S')}.txt"`
argument (line 281). -/
def downloadFileName (t : Timestamp) : String :=
  "test_cases_" ++ strftimeCompact t ++ ".txt"

/-- The `mime="text/plain"` argument (line 282). -/
def downloadMime : String := "text/plain"

/-- Is `b` a UTF-8 continuation byte (`0x80..0xBF`)? -/
def isCont (b : Nat) : Bool := 0x80 ≤ b && b < 0xC0

/-- One step of strict UTF-8 decoding, as performed by Python
`bytes.decode("utf-8")`: consume the byte sequence of one code point and
return the decoded character with the remaining bytes, rejecting truncated
sequences, stray continuation bytes, overlong encodings, surrogate code
points and code points above `0x10FFFF` (`none` models the raised
`UnicodeDecodeError`). -/
def utf8DecodeStep : List Nat → Option (Char × List Nat)
  | [] => none
  | b :: rest =>
    if b < 0x80 then some (Char.ofNat b, rest)
    else if b < 0xC2 then none
    else if b < 0xE0 then
      match rest with
      | b2 :: rest2 =>
        if isCont b2 then some (Char.ofNat ((b - 0xC0) * 64 + (b2 - 0x80)), rest2) else none
      | [] => none
    else if b < 0xF0 then
      match rest with
      | b2 :: b3 :: rest3 =>
        if (if b == 0xE0 then 0xA0 ≤ b2 && b2 < 0xC0
            else if b == 0xED then 0x80 ≤ b2 && b2 < 0xA0
            else isCont b2) && isCont b3 then
          some (Char.ofNat ((b - 0xE0) * 4096 + (b2 - 0x80) * 64 + (b3 - 0x80)), rest3)
        else none
      | _ => none
    else if b < 0xF5 then
      match rest with
      | b2 :: b3 :: b4 :: rest4 =>
        if (if b == 0xF0 then 0x90 ≤ b2 && b2 < 0xC0
            else if b == 0xF4 then 0x80 ≤ b2 && b2 < 0x90
            else isCont b2) && isCont b3 && isCont b4 then
          some (Char.ofNat ((b - 0xF0) * 262144 + (b2 - 0x80) * 4096 +
            (b3 - 0x80) * 64 + (b4 - 0x80)), rest4)
        else none
      | _ => none
    else none

/-- Strict UTF-8 decoding of a whole byte list: iterate `utf8DecodeStep`
until the input is exhausted.  The fuel argument only bounds the number of
steps; since every step consumes at least one byte, fuel equal to the input
length (as supplied by `utf8DecodeChars`) is never exhausted. -/
def utf8DecodeLoop : Nat → List Nat → Option (List Char)
  | _, [] => some []
  | 0, _ :: _ => none
  | fuel + 1, b :: tail =>
    match utf8DecodeStep (b :: tail) with
    | none => none
    | some (c, rest) => (utf8DecodeLoop fuel rest).map (fun cs => c :: cs)

/-- Python `bytes.decode("utf-8")` on the characters level. -/
def utf8DecodeChars (bs : List Nat) : Option (List Char) :=
  utf8DecodeLoop bs.length bs

/-- Python `raw_bytes.decode("utf-8")` returning a string. -/
def utf8Decode (bs : List Nat) : Option String :=
  (utf8DecodeChars bs).map String.mk

/-- The standard UTF-8 encoding of one code point `n` (1-4 bytes). -/
def utf8EncodeCodePoint (n : Nat) : List Nat :=
  if n < 0x80 then [n]
  else if n < 0x800 then [0xC0 + n / 64, 0x80 + n % 64]
  else if n < 0x10000 then [0xE0 + n / 4096, 0x80 + n / 64 % 64, 0x80 + n % 64]
  else [0xF0 + n / 262144, 0x80 + n / 4096 % 64, 0x80 + n / 64 % 64, 0x80 + n % 64]

/-- UTF-8 encoding of a string, byte by byte. -/
def utf8Encode (s : String) : List Nat :=
  s.toList.flatMap (fun c => utf8EncodeCodePoint c.toNat)

/-- Python `s.endswith(suffix)`: is `suffix` a suffix of `s`? -/
def pyEndsWith (s suffix : String) : Bool := suffix.toList.isSuffixOf s.toList

/-- Python whitespace as stripped by `str.strip()`: the full set of code
points CPython treats as whitespace (`Py_UNICODE_ISSPACE`) — the ASCII
controls `\t`, `\n`, `\x0b`, `\x0c`, `\r` and `\x1c`-`\x1f`, the space,
next-line `\x85`, no-break space `\xa0`, Ogham space mark, the `U+2000`
to `U+200A` spaces, line and paragraph separators, narrow no-break space,
medium mathematical space and ideographic space. -/
def isPySpace (c : Char) : Bool :=
  (0x09 ≤ c.toNat && c.toNat ≤ 0x0D) || (0x1C ≤ c.toNat && c.toNat ≤ 0x1F) ||
  c.toNat == 0x20 || c.toNat == 0x85 || c.toNat == 0xA0 || c.toNat == 0x1680 ||
  (0x2000 ≤ c.toNat && c.toNat ≤ 0x200A) || c.toNat == 0x2028 || c.toNat == 0x2029 ||
  c.toNat == 0x202F || c.toNat == 0x205F || c.toNat == 0x3000

/-- Python `str.strip()`: drop whitespace from both ends. -/
def pyStrip (s : String) : String :=
  String.mk (((s.toList.dropWhile isPySpace).reverse.dropWhile isPySpace).reverse)

/-- An uploaded file as the extractor sees it: its declared name, its raw
bytes (`uploaded_file.read()`), and the result of handing it to the external
rich-document parser (`Document(uploaded_file)`): the `.text` of each
paragraph in order, or `none` when parsing raises. -/
structure UploadedFile where
  name : String
  bytes : List Nat
  docxParagraphs : Option (List String)

/-- Function `extract_text_from_file` (lines 60-71): `.txt` names decode the bytes as
UTF-8; `.docx` names join the paragraph texts whose `strip()` is truthy with
newlines; any exception (or other name) yields `None`. -/
def extract_text_from_file (f : UploadedFile) : Option String :=
  if pyEndsWith f.name ".txt" then
    utf8Decode f.bytes
  else if pyEndsWith f.name ".docx" then
    f.docxParagraphs.map (fun paras =>
      String.intercalate "\n" (paras.filter (fun p => !(pyStrip p).isEmpty)))
  else none

theorem utf8DecodeStep_shrinks :
    ∀ bs c rest, utf8DecodeStep bs = some (c, rest) → rest.length < bs.length := by
  intro bs c rest h
  rcases bs with _ | ⟨b, tail⟩
  · exact absurd h (by simp [utf8DecodeStep])
  · simp only [utf8DecodeStep] at h
    split_ifs at h
    all_goals try split at h
    all_goals try split_ifs at h
    all_goals try simp at h
    all_goals obtain ⟨-, rfl⟩ := h
    all_goals simp only [List.length_cons]
    all_goals omega


theorem utf8DecodeLoop_congr :
    ∀ f1 f2 bs, bs.length ≤ f1 → bs.length ≤ f2 →
      utf8DecodeLoop f1 bs = utf8DecodeLoop f2 bs := by
  intro f1
  induction f1 using Nat.strong_induction_on with
  | _ f1 ih =>
    intro f2 bs h1 h2
    rcases bs with _ | ⟨b, tail⟩
    · cases f1 <;> cases f2 <;> rfl
    · rcases f1 with _ | f1
      · simp at h1
      rcases f2 with _ | f2
      · simp at h2
      simp only [utf8DecodeLoop]
      rcases hstep : utf8DecodeStep (b :: tail) with _ | ⟨c, rest⟩
      · rfl
      · have hlen := utf8DecodeStep_shrinks _ _ _ hstep
        simp only [List.length_cons] at hlen h1 h2
        have heq := ih f1 (by omega) f2 rest (by omega) (by omega)
        simp [heq]


/-- C1: the function `generate_test_cases_api` classifies transport failures into
distinguishable cases with fixed numeric status surrogates — timeout gives
status 408, connection failure 503, any other request-level or unexpected
exception 500 — each paired with an `{"error": <message>}` payload, so every
failure is returned as a `(statusCode, payload)` pair (the function is total
on outcomes, never re-raising). -/
theorem generate_api_failure_classification :
    generate_test_cases_api .timeout =
      (408, .obj [("error", .str "Request timed out. Please try with shorter SRS content.")]) ∧
    generate_test_cases_api .connectionError =
      (503, .obj [("error", .str "Cannot connect to backend service. Please try again later.")]) ∧
    (∀ m, generate_test_cases_api (.requestError m) =
      (500, .obj [("error", .str ("Request failed: " ++ m))])) ∧
    (∀ m, generate_test_cases_api (.otherError m) =
      (500, .obj [("error", .str ("Unexpected error: " ++ m))])) ∧
    (∀ o : TransportOutcome, (∀ c b, o ≠ .success c b) →
      ∃ msg, ((generate_test_cases_api o).2).getD "error" .null = .str msg) := by
  refine ⟨rfl, rfl, fun m => rfl, fun m => rfl, fun o h => ?_⟩
  cases o with
  | success c b => exact absurd rfl (h c b)
  | timeout => exact ⟨_, rfl⟩
  | connectionError => exact ⟨_, rfl⟩
  | requestError m => exact ⟨_, rfl⟩
  | otherError m => exact ⟨_, rfl⟩

/-- Witness for C1 at the concrete outcome `.timeout`. -/
theorem generate_api_failure_classification_witness :
    ∃ msg, ((generate_test_cases_api .timeout).2).getD "error" .null = .str msg :=
  generate_api_failure_classification.2.2.2.2 .timeout (fun _ _ h => nomatch h)

/-- C9: the function `check_backend_health` returns `(true, parsedBody)` exactly when the
GET completes at the transport level with status 200; a non-200 status yields
`(false, noDetails)` and a raised exception yields `(false, str(e))`, so the
boolean is true only on a transport-level 200. -/
theorem check_backend_health_spec :
    (∀ body, check_backend_health (.response 200 body) = (true, .parsed body)) ∧
    (∀ code body, code ≠ 200 → check_backend_health (.response code body) = (false, .noDetails)) ∧
    (∀ m, check_backend_health (.exc m) = (false, .errText m)) ∧
    (∀ o, (check_backend_health o).1 = true ↔ ∃ body, o = .response 200 body) := by
  refine ⟨fun body => rfl, fun code body h => ?_, fun m => rfl, fun o => ?_⟩
  · simp [check_backend_health, h]
  · cases o with
    | response code body =>
      by_cases h : code = 200
      · subst h
        simp [check_backend_health]
      · simp [check_backend_health, h]
    | exc m => simp [check_backend_health]

/-- Witness for C9 at the concrete non-200 status 503. -/
theorem check_backend_health_spec_witness :
    (503 ≠ 200) ∧ check_backend_health (.response 503 .null) = (false, .noDetails) :=
  ⟨by decide, check_backend_health_spec.2.1 503 .null (by decide)⟩

/-- C6: a 200 response with payload `{"test_cases": []}` reaches the
"no test cases generated" panel, a presentation state distinct (as a
constructor) from the "Generation Failed" panel that every non-200 status
reaches. -/
theorem empty_result_distinct_state :
    handleResponse 200 (.obj [("test_cases", .arr [])]) = .noTestCases ∧
    (∀ code body, code ≠ 200 →
      handleResponse code body =
        .generationFailed (body.getD "error" (.str "Unknown error occurred")) code) ∧
    (∀ e c, GenerationView.noTestCases ≠ .generationFailed e c) := by
  refine ⟨rfl, fun code body h => ?_, fun e c h => nomatch h⟩
  simp [handleResponse, h]

/-- Witness for C6: status 503 with an error body lands in the
"Generation Failed" panel. -/
theorem empty_result_distinct_state_witness :
    (503 ≠ 200) ∧
      handleResponse 503 (.obj [("error", .str "down")]) = .generationFailed (.str "down") 503 :=
  ⟨by decide, empty_result_distinct_state.2.1 503 (.obj [("error", .str "down")]) (by decide)⟩

/-- C5: on transport-level success the API wrapper returns the remote status
code and parsed body verbatim (no validation), and a 200 body with no
`test_cases` key is handled as the empty list — reaching the same
no-test-cases panel as an explicitly empty list. -/
theorem transport_success_passthrough :
    (∀ code body, generate_test_cases_api (.success code body) = (code, body)) ∧
    (∀ fields, (∀ p ∈ fields, p.1 ≠ "test_cases") →
      handleResponse 200 (.obj fields) = .noTestCases) := by
  refine ⟨fun code body => rfl, fun fields h => ?_⟩
  have hfind : fields.find? (fun p => p.1 == "test_cases") = none := by
    rw [List.find?_eq_none]
    intro p hp
    simpa using h p hp
  simp [handleResponse, Json.getD, hfind, Json.pyTruthy]

/-- Witness for C5: a 200 body carrying only other keys yields the
no-test-cases panel. -/
theorem transport_success_passthrough_witness :
    (∀ p ∈ [("model_used", Json.str "m")], p.1 ≠ "test_cases") ∧
      handleResponse 200 (.obj [("model_used", Json.str "m")]) = .noTestCases :=
  ⟨by decide, transport_success_passthrough.2 [("model_used", Json.str "m")] (by decide)⟩

/-- C8: the client puts the full extracted text, unmodified, in the `srs`
field of the request body regardless of length; above 5000 characters it only
warns about truncation (the warning state), it never truncates. -/
theorem client_sends_full_text :
    ∀ s : String,
      requestPayload s = .obj [("srs", .str s)] ∧
      (requestPayload s).getD "srs" .null = .str s ∧
      (5000 < s.length → contentWarning s = .truncation s.length) := by
  intro s
  refine ⟨rfl, rfl, fun h => ?_⟩
  simp [contentWarning, h]

/-- Witness for C8 on a 5001-character text: the payload carries it whole and
the UI is in the truncation-warning state. -/
theorem client_sends_full_text_witness :
    5000 < (String.mk (List.replicate 5001 'a')).length ∧
      contentWarning (String.mk (List.replicate 5001 'a')) =
        .truncation (String.mk (List.replicate 5001 'a')).length :=
  ⟨by rw [String.length_mk, List.length_replicate]; omega,
    (client_sends_full_text _).2.2 (by rw [String.length_mk, List.length_replicate]; omega)⟩

theorem numberedLines_eq_enumFrom (tcs : List String) :
    ∀ i, numberedLines i tcs = (List.enumFrom i tcs).map (fun p => toString p.1 ++ ". " ++ p.2) := by
  induction tcs with
  | nil => intro i; rfl
  | cons tc rest ih => intro i; simp [numberedLines, List.enumFrom_cons, ih]

theorem digitChar_isDigit : ∀ d, d < 10 → (Char.ofNat (48 + d)).isDigit = true := by decide

theorem mem_natDigits_isDigit (n : Nat) : ∀ c ∈ natDigits n, c.isDigit = true := by
  induction n using Nat.strong_induction_on with
  | _ n ih =>
    rw [natDigits]
    split
    · next h =>
      intro c hc
      rw [List.mem_singleton] at hc
      subst hc
      exact digitChar_isDigit n h
    · next h =>
      intro c hc
      rw [List.mem_append] at hc
      rcases hc with hc | hc
      · exact ih (n / 10) (Nat.div_lt_self (by omega) (by omega)) c hc
      · rw [List.mem_singleton] at hc
        subst hc
        exact digitChar_isDigit (n % 10) (Nat.mod_lt n (by omega))

theorem natDigits_length_le (k : Nat) : ∀ n, 1 ≤ k → n < 10 ^ k → (natDigits n).length ≤ k := by
  induction k with
  | zero => omega
  | succ k ih =>
    intro n _ hn
    rw [natDigits]
    split
    · simp
    · next h =>
      have hk : 1 ≤ k := by
        rcases Nat.eq_zero_or_pos k with hk0 | hk0
        · subst hk0; simp at hn; omega
        · exact hk0
      have hdiv : n / 10 < 10 ^ k := by
        rw [Nat.div_lt_iff_lt_mul (by omega)]
        calc n < 10 ^ (k + 1) := hn
        _ = 10 ^ k * 10 := by rw [Nat.pow_succ]
      have := ih (n / 10) hk hdiv
      simp only [List.length_append, List.length_cons, List.length_nil]
      omega

theorem padNum_length (w n : Nat) (h1 : 1 ≤ w) (h2 : n < 10 ^ w) : (padNum w n).length = w := by
  rw [padNum, List.leftpad_length]
  exact Nat.max_eq_left (natDigits_length_le w n h1 h2)

theorem mem_padNum_isDigit (w n : Nat) : ∀ c ∈ padNum w n, c.isDigit = true := by
  intro c hc
  rw [padNum, List.leftpad, List.mem_append] at hc
  rcases hc with hc | hc
  · rw [List.eq_of_mem_replicate hc]
    decide
  · exact mem_natDigits_isDigit n c hc

/-- C7: the text export is the newline-join of `"{index}. {case}"` lines with
1-based indices in list order; `["Case one", "Case two"]` exports as
`"1. Case one\n2. Case two"`; the download is offered as `text/plain` under a
name of the shape `test_cases_<8 digits>_<6 digits>.txt`. -/
theorem export_text_and_filename_spec :
    (∀ tcs, export_text tcs =
      String.intercalate "\n" ((List.enumFrom 1 tcs).map (fun p => toString p.1 ++ ". " ++ p.2))) ∧
    export_text ["Case one", "Case two"] = "1. Case one\n2. Case two" ∧
    downloadMime = "text/plain" ∧
    (∀ t : Timestamp, t.year < 10000 → t.month < 100 → t.day < 100 →
      t.hour < 100 → t.minute < 100 → t.second < 100 →
      ∃ ymd hms : List Char,
        downloadFileName t = "test_cases_" ++ String.mk (ymd ++ '_' :: hms) ++ ".txt" ∧
        ymd.length = 8 ∧ hms.length = 6 ∧
        (∀ c ∈ ymd, c.isDigit = true) ∧ (∀ c ∈ hms, c.isDigit = true)) := by
  refine ⟨fun tcs => by rw [export_text, numberedLines_eq_enumFrom], rfl, rfl,
    fun t hy hmo hd hh hmi hs => ?_⟩
  refine ⟨padNum 4 t.year ++ padNum 2 t.month ++ padNum 2 t.day,
    padNum 2 t.hour ++ padNum 2 t.minute ++ padNum 2 t.second, ?_, ?_, ?_, ?_, ?_⟩
  · rw [downloadFileName, strftimeCompact]
    congr 2
    simp
  · simp only [List.length_append]
    rw [padNum_length 4 t.year (by omega) hy, padNum_length 2 t.month (by omega) hmo,
      padNum_length 2 t.day (by omega) hd]
  · simp only [List.length_append]
    rw [padNum_length 2 t.hour (by omega) hh, padNum_length 2 t.minute (by omega) hmi,
      padNum_length 2 t.second (by omega) hs]
  · intro c hc
    rw [List.mem_append, List.mem_append] at hc
    rcases hc with (hc | hc) | hc
    · exact mem_padNum_isDigit 4 t.year c hc
    · exact mem_padNum_isDigit 2 t.month c hc
    · exact mem_padNum_isDigit 2 t.day c hc
  · intro c hc
    rw [List.mem_append, List.mem_append] at hc
    rcases hc with (hc | hc) | hc
    · exact mem_padNum_isDigit 2 t.hour c hc
    · exact mem_padNum_isDigit 2 t.minute c hc
    · exact mem_padNum_isDigit 2 t.second c hc

/-- Witness for C7 at the concrete instant 2026-10-12 13:04:05. -/
theorem export_text_and_filename_spec_witness :
    (2026 < 10000) ∧
      (∃ ymd hms : List Char,
        downloadFileName ⟨2026, 10, 12, 13, 4, 5⟩ =
          "test_cases_" ++ String.mk (ymd ++ '_' :: hms) ++ ".txt" ∧
        ymd.length = 8 ∧ hms.length = 6 ∧
        (∀ c ∈ ymd, c.isDigit = true) ∧ (∀ c ∈ hms, c.isDigit = true)) :=
  ⟨by decide, export_text_and_filename_spec.2.2.2 ⟨2026, 10, 12, 13, 4, 5⟩
    (by decide) (by decide) (by decide) (by decide) (by decide) (by decide)⟩

theorem splitDashAux_ne_nil : ∀ l acc, splitDashAux l acc ≠ [] := by
  intro l acc
  induction l, acc using splitDashAux.induct with
  | case1 rest acc ih => simp [splitDashAux]
  | case2 c rest acc hne ih => simp only [splitDashAux, hne]; exact ih
  | case3 acc => simp [splitDashAux]

theorem joinSep_splitDashAux :
    ∀ l acc, joinSep dashSep (splitDashAux l acc) = acc.reverse ++ l := by
  intro l acc
  induction l, acc using splitDashAux.induct with
  | case1 rest acc ih =>
    rw [splitDashAux]
    rcases hne : splitDashAux rest [] with _ | ⟨x, xs⟩
    · exact absurd hne (splitDashAux_ne_nil rest [])
    · rw [joinSep, ← hne, ih]
      simp [dashSep]
  | case2 c rest acc hne ih =>
    rw [splitDashAux]
    · rw [ih]
      simp
    · exact hne
  | case3 acc =>
    rw [splitDashAux, joinSep]
    simp

theorem joinSep_splitDash (l : List Char) : joinSep dashSep (splitDash l) = l := by
  rw [splitDash, joinSep_splitDashAux]
  rfl

/-- C4: the renderer shows a test case as objective / steps / expected exactly
when the string contains `" - "` and splitting on it yields at least three
segments — segment 0 as objective, segment 1 as steps, the rest rejoined by
`" - "` as expected result — and renders every other string verbatim;
`"Objective A - Step 1 - Expected X"` yields the three segments and
`"Just one sentence"` is shown verbatim. -/
theorem renderTestCase_rule :
    (∀ (tc : String) (p0 p1 p2 : List Char) (rest : List (List Char)),
      containsDashSep tc.toList = true →
      splitDash tc.toList = p0 :: p1 :: p2 :: rest →
      renderTestCase tc = .structured (String.mk p0) (String.mk p1)
        (String.mk (joinSep dashSep (p2 :: rest)))) ∧
    (∀ tc : String, containsDashSep tc.toList = false → renderTestCase tc = .verbatim tc) ∧
    (∀ tc : String, (splitDash tc.toList).length < 3 → renderTestCase tc = .verbatim tc) ∧
    renderTestCase "Objective A - Step 1 - Expected X" =
      .structured "Objective A" "Step 1" "Expected X" ∧
    renderTestCase "Just one sentence" = .verbatim "Just one sentence" := by
  refine ⟨fun tc p0 p1 p2 rest hc hs => ?_, fun tc hc => ?_, fun tc hlen => ?_, rfl, rfl⟩
  · rw [renderTestCase, if_pos hc, hs]
  · simp only [String.toList] at hc
    rw [renderTestCase, if_neg (by simp [String.toList, hc])]
  · rw [renderTestCase]
    split
    · rcases hs : splitDash tc.toList with _ | ⟨p0, _ | ⟨p1, _ | ⟨p2, rest⟩⟩⟩
      · rfl
      · rfl
      · rfl
      · have hlen' : (p0 :: p1 :: p2 :: rest).length < 3 := by
          rw [← hs]
          exact hlen
        simp only [List.length_cons] at hlen'
        omega
    · rfl

/-- Witness for C4: both branches of the rule at the concrete strings of the spec. -/
theorem renderTestCase_rule_witness :
    containsDashSep "Objective A - Step 1 - Expected X".toList = true ∧
    splitDash "Objective A - Step 1 - Expected X".toList =
      ["Objective A".toList, "Step 1".toList, "Expected X".toList] ∧
    renderTestCase "Objective A - Step 1 - Expected X" =
      .structured "Objective A" "Step 1" "Expected X" ∧
    containsDashSep "Just one sentence".toList = false ∧
    renderTestCase "Just one sentence" = .verbatim "Just one sentence" :=
  ⟨by decide, by decide,
    renderTestCase_rule.1 "Objective A - Step 1 - Expected X"
      "Objective A".toList "Step 1".toList "Expected X".toList [] (by decide) (by decide),
    by decide,
    renderTestCase_rule.2.1 "Just one sentence" (by decide)⟩

/-- C10: the display split is lossless — rejoining the split segments with
`" - "` reproduces the input, and in particular whenever a test case is
rendered as objective / steps / expected, concatenating those three shown
fields with `" - "` gives back the original string. -/
theorem render_rejoin_lossless :
    (∀ l : List Char, joinSep dashSep (splitDash l) = l) ∧
    (∀ tc o s e : String, renderTestCase tc = .structured o s e →
      o ++ " - " ++ s ++ " - " ++ e = tc) := by
  refine ⟨joinSep_splitDash, fun tc o s e h => ?_⟩
  rw [renderTestCase] at h
  split at h
  · next hc =>
    rcases hs : splitDash tc.toList with _ | ⟨p0, _ | ⟨p1, _ | ⟨p2, rest⟩⟩⟩ <;>
      rw [hs] at h
    · exact absurd h (by simp)
    · exact absurd h (by simp)
    · exact absurd h (by simp)
    · injection h with h1 h2 h3
      subst h1 h2 h3
      have hjoin : tc.toList = p0 ++ dashSep ++ (p1 ++ (dashSep ++ joinSep dashSep (p2 :: rest))) := by
        conv_lhs => rw [← joinSep_splitDash tc.toList, hs]
        rw [joinSep, joinSep]
        simp [List.append_assoc]
      apply String.ext
      simp only [String.data_append]
      rw [show tc.data = tc.toList from rfl, hjoin]
      simp [dashSep, List.append_assoc]
  · exact absurd h (by simp)

/-- Witness for C10 at the structured example of the spec. -/
theorem render_rejoin_lossless_witness :
    renderTestCase "Objective A - Step 1 - Expected X" =
      .structured "Objective A" "Step 1" "Expected X" ∧
    "Objective A" ++ " - " ++ "Step 1" ++ " - " ++ "Expected X" =
      "Objective A - Step 1 - Expected X" :=
  ⟨by decide, render_rejoin_lossless.2 "Objective A - Step 1 - Expected X"
    "Objective A" "Step 1" "Expected X" (by decide)⟩

theorem not_isEmpty_eq_bne (s : String) : (!s.isEmpty) = (s != "") := by
  by_cases h : s = ""
  · subst h
    decide
  · have h1 : s.isEmpty = false := by
      rw [← Bool.not_eq_true]
      intro hh
      exact h ((String.isEmpty_iff s).mp hh)
    rw [h1]
    simp [bne, h]

/-- C3: for a `.docx` upload that parses into paragraphs, extraction returns
the newline-join of exactly those paragraphs whose stripped text is non-empty,
in order; in particular paragraphs `["A", "", "B"]` give `"A\nB"`. -/
theorem extract_docx_joins_nonblank_paragraphs :
    (∀ (f : UploadedFile) (paras : List String),
      pyEndsWith f.name ".docx" = true → pyEndsWith f.name ".txt" = false →
      f.docxParagraphs = some paras →
      extract_text_from_file f =
        some (String.intercalate "\n" (paras.filter (fun p => pyStrip p != "")))) ∧
    extract_text_from_file ⟨"srs.docx", [], some ["A", "", "B"]⟩ = some "A\nB" := by
  refine ⟨fun f paras hdocx htxt hp => ?_, by decide⟩
  rw [extract_text_from_file, if_neg (by simp [htxt]), if_pos hdocx, hp]
  rw [show (fun p => !(pyStrip p).isEmpty) = (fun p => pyStrip p != "") from
    funext (fun p => not_isEmpty_eq_bne (pyStrip p))]
  rfl

/-- Witness for C3 at the paragraphs `["A", "", "B"]`, plus the evaluation
showing a paragraph holding only a no-break space is likewise dropped. -/
theorem extract_docx_joins_nonblank_paragraphs_witness :
    pyEndsWith "srs.docx" ".docx" = true ∧ pyEndsWith "srs.docx" ".txt" = false ∧
    extract_text_from_file ⟨"srs.docx", [], some ["A", "", "B"]⟩ =
      some (String.intercalate "\n" (["A", "", "B"].filter (fun p => pyStrip p != ""))) ∧
    extract_text_from_file ⟨"srs.docx", [], some ["A", "\u00A0", "B"]⟩ = some "A\nB" :=
  ⟨by decide, by decide,
    extract_docx_joins_nonblank_paragraphs.1 ⟨"srs.docx", [], some ["A", "", "B"]⟩
      ["A", "", "B"] (by decide) (by decide) rfl,
    by decide⟩


theorem char_toNat_valid (c : Char) :
    c.toNat < 0xD800 ∨ (0xDFFF < c.toNat ∧ c.toNat < 0x110000) := by
  rcases c.valid with h | ⟨h1, h2⟩
  · exact Or.inl h
  · exact Or.inr ⟨h1, h2⟩

theorem utf8DecodeStep_encode (n : Nat)
    (h : n < 0xD800 ∨ (0xDFFF < n ∧ n < 0x110000)) (bs : List Nat) :
    utf8DecodeStep (utf8EncodeCodePoint n ++ bs) = some (Char.ofNat n, bs) := by
  rw [utf8EncodeCodePoint]
  by_cases h1 : n < 0x80
  · rw [if_pos h1]
    simp only [List.singleton_append, utf8DecodeStep, if_pos h1]
  · rw [if_neg h1]
    by_cases h2 : n < 0x800
    · rw [if_pos h2]
      have e1 : ¬(0xC0 + n / 64 < 0x80) := by omega
      have e2 : ¬(0xC0 + n / 64 < 0xC2) := by omega
      have e3 : 0xC0 + n / 64 < 0xE0 := by omega
      have e4 : isCont (0x80 + n % 64) = true := by
        simp only [isCont, Bool.and_eq_true, decide_eq_true_eq]
        omega
      have e5 : (0xC0 + n / 64 - 0xC0) * 64 + (0x80 + n % 64 - 0x80) = n := by omega
      simp [List.cons_append, utf8DecodeStep, e1, e2, e3, e4, e5]
      try exact congrArg Char.ofNat (by omega)
    · rw [if_neg h2]
      by_cases h3 : n < 0x10000
      · rw [if_pos h3]
        have e1 : ¬(0xE0 + n / 4096 < 0x80) := by omega
        have e2 : ¬(0xE0 + n / 4096 < 0xC2) := by omega
        have e3 : ¬(0xE0 + n / 4096 < 0xE0) := by omega
        have e4 : 0xE0 + n / 4096 < 0xF0 := by omega
        have e6 : isCont (0x80 + n % 64) = true := by
          simp only [isCont, Bool.and_eq_true, decide_eq_true_eq]
          omega
        have e5 : (0xE0 + n / 4096 - 0xE0) * 4096 + (0x80 + n / 64 % 64 - 0x80) * 64 +
            (0x80 + n % 64 - 0x80) = n := by omega
        by_cases hb : n < 0x1000
        · have q1 : ((0xE0 + n / 4096 : Nat) == 0xE0) = true := by
            simp only [beq_iff_eq]
            omega
          have q2 : 0xA0 ≤ 0x80 + n / 64 % 64 := by omega
          have q3 : 0x80 + n / 64 % 64 < 0xC0 := by omega
          simp [List.cons_append, utf8DecodeStep, e1, e2, e3, e4, e5, e6, q1, q2, q3]
          try exact congrArg Char.ofNat (by omega)
        · by_cases hd : 0xD000 ≤ n ∧ n < 0xE000
          · have hlt : n < 0xD800 := by omega
            have q1 : ((0xE0 + n / 4096 : Nat) == 0xE0) = false := by
              simp only [beq_eq_false_iff_ne]
              omega
            have q2 : ((0xE0 + n / 4096 : Nat) == 0xED) = true := by
              simp only [beq_iff_eq]
              omega
            have q3 : 0x80 ≤ 0x80 + n / 64 % 64 := by omega
            have q4 : 0x80 + n / 64 % 64 < 0xA0 := by omega
            simp [List.cons_append, utf8DecodeStep, e1, e2, e3, e4, e5, e6, q1, q2, q3, q4]
            try exact congrArg Char.ofNat (by omega)
          · have q1 : ((0xE0 + n / 4096 : Nat) == 0xE0) = false := by
              simp only [beq_eq_false_iff_ne]
              omega
            have q2 : ((0xE0 + n / 4096 : Nat) == 0xED) = false := by
              simp only [beq_eq_false_iff_ne]
              omega
            have q3 : isCont (0x80 + n / 64 % 64) = true := by
              simp only [isCont, Bool.and_eq_true, decide_eq_true_eq]
              omega
            simp [List.cons_append, utf8DecodeStep, e1, e2, e3, e4, e5, e6, q1, q2, q3]
            try exact congrArg Char.ofNat (by omega)
      · rw [if_neg h3]
        have hup : n < 0x110000 := by omega
        have e1 : ¬(0xF0 + n / 262144 < 0x80) := by omega
        have e2 : ¬(0xF0 + n / 262144 < 0xC2) := by omega
        have e3 : ¬(0xF0 + n / 262144 < 0xE0) := by omega
        have e4 : ¬(0xF0 + n / 262144 < 0xF0) := by omega
        have e5 : 0xF0 + n / 262144 < 0xF5 := by omega
        have e6 : isCont (0x80 + n / 64 % 64) = true := by
          simp only [isCont, Bool.and_eq_true, decide_eq_true_eq]
          omega
        have e7 : isCont (0x80 + n % 64) = true := by
          simp only [isCont, Bool.and_eq_true, decide_eq_true_eq]
          omega
        have e8 : (0xF0 + n / 262144 - 0xF0) * 262144 + (0x80 + n / 4096 % 64 - 0x80) * 4096 +
            (0x80 + n / 64 % 64 - 0x80) * 64 + (0x80 + n % 64 - 0x80) = n := by omega
        by_cases hb : n < 0x40000
        · have q1 : ((0xF0 + n / 262144 : Nat) == 0xF0) = true := by
            simp only [beq_iff_eq]
            omega
          have q2 : 0x90 ≤ 0x80 + n / 4096 % 64 := by omega
          have q3 : 0x80 + n / 4096 % 64 < 0xC0 := by omega
          simp [List.cons_append, utf8DecodeStep, e1, e2, e3, e4, e5, e6, e7, e8, q1, q2, q3]
          try exact congrArg Char.ofNat (by omega)
        · by_cases hf : n < 0x100000
          · have q1 : ((0xF0 + n / 262144 : Nat) == 0xF0) = false := by
              simp only [beq_eq_false_iff_ne]
              omega
            have q2 : ((0xF0 + n / 262144 : Nat) == 0xF4) = false := by
              simp only [beq_eq_false_iff_ne]
              omega
            have q3 : isCont (0x80 + n / 4096 % 64) = true := by
              simp only [isCont, Bool.and_eq_true, decide_eq_true_eq]
              omega
            simp [List.cons_append, utf8DecodeStep, e1, e2, e3, e4, e5, e6, e7, e8, q1, q2, q3]
            try exact congrArg Char.ofNat (by omega)
          · have q1 : ((0xF0 + n / 262144 : Nat) == 0xF0) = false := by
              simp only [beq_eq_false_iff_ne]
              omega
            have q2 : ((0xF0 + n / 262144 : Nat) == 0xF4) = true := by
              simp only [beq_iff_eq]
              omega
            have q3 : 0x80 ≤ 0x80 + n / 4096 % 64 := by omega
            have q4 : 0x80 + n / 4096 % 64 < 0x90 := by omega
            simp [List.cons_append, utf8DecodeStep, e1, e2, e3, e4, e5, e6, e7, e8, q1, q2, q3, q4]
            try exact congrArg Char.ofNat (by omega)

theorem utf8EncodeCodePoint_ne_nil (n : Nat) : utf8EncodeCodePoint n ≠ [] := by
  rw [utf8EncodeCodePoint]
  split_ifs <;> simp

theorem utf8DecodeChars_encode_append (n : Nat)
    (h : n < 0xD800 ∨ (0xDFFF < n ∧ n < 0x110000)) (bs : List Nat) :
    utf8DecodeChars (utf8EncodeCodePoint n ++ bs) =
      (utf8DecodeChars bs).map (fun cs => Char.ofNat n :: cs) := by
  have hstep := utf8DecodeStep_encode n h bs
  rcases henc : utf8EncodeCodePoint n with _ | ⟨e0, etail⟩
  · exact absurd henc (utf8EncodeCodePoint_ne_nil n)
  · rw [henc] at hstep
    simp only [List.cons_append] at hstep
    simp only [utf8DecodeChars, List.cons_append, List.length_cons, utf8DecodeLoop,
      List.append_eq]
    rw [hstep]
    simp only []
    rw [utf8DecodeLoop_congr (etail ++ bs).length bs.length bs
      (by simp only [List.length_append]; omega) (Nat.le_refl _)]

theorem utf8Decode_utf8Encode_chars :
    ∀ cs : List Char, utf8DecodeChars (cs.flatMap (fun c => utf8EncodeCodePoint c.toNat)) =
      some cs := by
  intro cs
  induction cs with
  | nil => rfl
  | cons c rest ih =>
    simp only [List.flatMap_cons]
    rw [utf8DecodeChars_encode_append c.toNat (char_toNat_valid c), ih]
    simp

theorem utf8Decode_roundtrip (s : String) : utf8Decode (utf8Encode s) = some s := by
  rw [utf8Decode, utf8Encode, utf8Decode_utf8Encode_chars]
  rfl

/-- C2: a `.txt` upload whose bytes are valid UTF-8 extracts to exactly the
UTF-8 decoding of those bytes; and decoding is a left inverse of UTF-8
encoding, so the bytes of any text round-trip to that same text unchanged. -/
theorem extract_txt_utf8_identity :
    (∀ (f : UploadedFile) (s : String), pyEndsWith f.name ".txt" = true →
      utf8Decode f.bytes = some s → extract_text_from_file f = some s) ∧
    (∀ s : String, utf8Decode (utf8Encode s) = some s) := by
  refine ⟨fun f s htxt hdec => ?_, utf8Decode_roundtrip⟩
  rw [extract_text_from_file, if_pos htxt, hdec]

/-- Witness for C2 on the two-byte file `"hi"` and a non-ASCII round trip. -/
theorem extract_txt_utf8_identity_witness :
    pyEndsWith "srs.txt" ".txt" = true ∧
    utf8Decode [104, 105] = some "hi" ∧
    extract_text_from_file ⟨"srs.txt", [104, 105], none⟩ = some "hi" ∧
    utf8Decode (utf8Encode "héλ") = some "héλ" :=
  ⟨by decide, by decide,
    extract_txt_utf8_identity.1 ⟨"srs.txt", [104, 105], none⟩ "hi" (by decide) (by decide),
    extract_txt_utf8_identity.2 "héλ"⟩
